import Mathlib

/-!
Verification of the statistical engine of the sample-size calculator:
the CUPED variance helpers, the power-curve evaluator
(`power_curve_proportions`), the bisection sample-size solver
(`ab_test_sample_size`) from `backend/app/powercalculator.py`, and the
MDE sweep (`get_mde_curve`) from `backend/app/api.py`.

The embedding works over the real numbers (the idealized semantics of
the floating-point source).  The standard normal cumulative distribution
function and its inverse come from Python's `statistics.NormalDist`,
which is library code outside the repository; they are abstracted as a
`NormalModel` parameter, and each theorem assumes only the properties of
a CDF that it actually needs.
-/

namespace SampleSizeCalculator

noncomputable section

/-- The three values of the `alternative` parameter of the calculator. -/
inductive Alternative
| twoSided
| greater
| less

/-- Standard normal distribution primitives used by the calculator
(Python `statistics.NormalDist(0, 1)`): the cumulative distribution
function `Phi` and its inverse `PhiInv`.  These are parameters of the
embedding because they live in the Python standard library, not in the
repository. -/
structure NormalModel where
  Phi : ℝ → ℝ
  PhiInv : ℝ → ℝ

/-- `NormalDist(mu, sigma).cdf x`, expressed with the standard normal CDF. -/
def NormalModel.cdf (nm : NormalModel) (mu sigma x : ℝ) : ℝ :=
  nm.Phi ((x - mu) / sigma)

/-- Error message of the correlation range check. -/
def correlationMsg : String := "correlation must be in range [0, 1)"

/-- Error message of the baseline range check. -/
def baselineMsg : String := "baseline_pct must be between 0 and 100 (exclusive)"

/-- Error message of the comparison range check. -/
def comparisonMsg : String := "comparison_pct must be between 0 and 100 (exclusive)"

/-- Error message of the sample-size positivity check. -/
def sampleSizeMsg : String := "sample_size_per_variant must be positive"

/-- `cuped_variance_reduction_factor` from `powercalculator.py`: a raised
`ValueError` is the `error` case. -/
def cuped_variance_reduction_factor (correlation : ℝ) : Except String ℝ :=
  if correlation < 0 ∨ 1 ≤ correlation then
    if correlation = 0 then .ok 1
    else .error correlationMsg
  else .ok (Real.sqrt (1 - correlation ^ 2))

/-- `cuped_variance_reduction_pct` from `powercalculator.py`. -/
def cuped_variance_reduction_pct (correlation : ℝ) : ℝ :=
  if correlation ≤ 0 then 0
  else (1 - (1 - correlation ^ 2)) * 100

/-- The `PowerCurveResult` dataclass of `powercalculator.py`.  Both
critical bounds are optional: each one-sided variant sets one of them to
`None`. -/
structure PowerCurveResult where
  x : List ℝ
  null_pdf : List ℝ
  alt_pdf : List ℝ
  crit_low : Option ℝ
  crit_high : Option ℝ
  power : ℝ
  beta : ℝ
  alpha : ℝ
  baseline : ℝ
  comparison : ℝ
  sample_size_per_variant : ℤ
  pre_experiment_correlation : ℝ
  variance_reduction_pct : ℝ

/-- `numpy.linspace a b num` over the reals (`endpoint=True`). -/
def linspace (a b : ℝ) (num : ℕ) : List ℝ :=
  if num = 1 then [a]
  else (List.range num).map fun i : ℕ => a + (b - a) * (i : ℝ) / ((num : ℝ) - 1)

/-- The pointwise normal density formula used for the plotted curves in
`power_curve_proportions`. -/
def normal_pdf (mu sigma x : ℝ) : ℝ :=
  (1 / (sigma * Real.sqrt (2 * Real.pi))) * Real.exp (-0.5 * ((x - mu) / sigma) ^ 2)

/-- The per-group standard error after the CUPED adjustment:
`se_raw = sqrt(p(1-p)/n)` multiplied by the factor `f`
(lines 256-262 of `powercalculator.py`). -/
def adjusted_se (p nr f : ℝ) : ℝ :=
  Real.sqrt (p * (1 - p) / nr) * f

/-- The arithmetic body of `power_curve_proportions` (lines 253-337 of
`powercalculator.py`), after the input checks have passed; `f` is the
already-computed CUPED factor. -/
def power_curve_core (nm : NormalModel) (baseline_pct comparison_pct : ℝ)
    (sample_size_per_variant : ℤ) (alpha : ℝ) (alternative : Alternative)
    (num_points : ℕ) (pre_experiment_correlation f : ℝ) : PowerCurveResult :=
  let p0 := baseline_pct / 100
  let p1 := comparison_pct / 100
  let n : ℝ := (sample_size_per_variant : ℝ)
  let se0 := adjusted_se p0 n f
  let se1 := adjusted_se p1 n f
  let variance_reduction := cuped_variance_reduction_pct pre_experiment_correlation
  let z_crit :=
    match alternative with
    | .twoSided => nm.PhiInv (1 - alpha / 2)
    | _ => nm.PhiInv (1 - alpha)
  let crit_low : Option ℝ :=
    match alternative with
    | .twoSided => some (p0 - z_crit * se0)
    | .greater => none
    | .less => some (p0 - z_crit * se0)
  let crit_high : Option ℝ :=
    match alternative with
    | .twoSided => some (p0 + z_crit * se0)
    | .greater => some (p0 + z_crit * se0)
    | .less => none
  let beta0 :=
    match alternative with
    | .twoSided => nm.cdf p1 se1 (p0 + z_crit * se0) - nm.cdf p1 se1 (p0 - z_crit * se0)
    | .greater => nm.cdf p1 se1 (p0 + z_crit * se0)
    | .less => 1 - nm.cdf p1 se1 (p0 - z_crit * se0)
  let beta := min 1 (max 0 beta0)
  let power := 1 - beta
  let se_max := max se0 se1
  let x_min := max 0 (min p0 p1 - 4 * se_max)
  let x_max := min 1 (max p0 p1 + 4 * se_max)
  let x := linspace x_min x_max num_points
  { x := x
    null_pdf := x.map (normal_pdf p0 se0)
    alt_pdf := x.map (normal_pdf p1 se1)
    crit_low := crit_low
    crit_high := crit_high
    power := power
    beta := beta
    alpha := alpha
    baseline := p0
    comparison := p1
    sample_size_per_variant := sample_size_per_variant
    pre_experiment_correlation := pre_experiment_correlation
    variance_reduction_pct := variance_reduction }

/-- `power_curve_proportions` from `powercalculator.py`: the input checks
in source order, then the computation; a raised `ValueError` is the
`error` case. -/
def power_curve_proportions (nm : NormalModel) (baseline_pct comparison_pct : ℝ)
    (sample_size_per_variant : ℤ) (alpha : ℝ) (alternative : Alternative)
    (num_points : ℕ) (pre_experiment_correlation : ℝ) :
    Except String PowerCurveResult :=
  if sample_size_per_variant ≤ 0 then .error sampleSizeMsg
  else if ¬ (0 < baseline_pct / 100 ∧ baseline_pct / 100 < 1) then .error baselineMsg
  else if ¬ (0 < comparison_pct / 100 ∧ comparison_pct / 100 < 1) then .error comparisonMsg
  else
    match cuped_variance_reduction_factor pre_experiment_correlation with
    | .error e => .error e
    | .ok f =>
        .ok (power_curve_core nm baseline_pct comparison_pct sample_size_per_variant
          alpha alternative num_points pre_experiment_correlation f)

/-- The bisection loop of `ab_test_sample_size` (lines 168-187 of
`powercalculator.py`): `g` evaluates the power model at the midpoint,
`target` is the requested power; once the iterations are exhausted the
final `high` bound is returned. -/
def searchLoop (g : ℝ → Except String ℝ) (target : ℝ) :
    ℕ → ℝ → ℝ → Except String ℝ
  | 0, _, high => .ok high
  | k + 1, low, high =>
      match g ((low + high) / 2) with
      | .error e => .error e
      | .ok p =>
          if target ≤ p then searchLoop g target k low ((low + high) / 2)
          else searchLoop g target k ((low + high) / 2) high

/-- The power value the solver reads off one evaluation of
`power_curve_proportions` at integer sample size `n` (`result.power` in
the loop body). -/
def solver_power (nm : NormalModel) (baseline_pct comparison_pct alpha : ℝ)
    (alternative : Alternative) (correlation : ℝ) (num_points : ℕ) (n : ℤ) :
    Except String ℝ :=
  (power_curve_proportions nm baseline_pct comparison_pct n alpha alternative
    num_points correlation).map fun r => r.power

/-- `ab_test_sample_size` from `powercalculator.py`, generalized over the
density resolution used during the search (the source hard-codes 51
points; `Python int()` truncation of the positive midpoint is the
floor). -/
def ab_test_sample_size_with_points (nm : NormalModel) (num_points : ℕ)
    (baseline_pct comparison_pct alpha power : ℝ) (alternative : Alternative)
    (pre_experiment_correlation : ℝ) : Except String ℝ :=
  if ¬ (0 < baseline_pct / 100 ∧ baseline_pct / 100 < 1) then .error baselineMsg
  else if ¬ (0 < comparison_pct / 100 ∧ comparison_pct / 100 < 1) then .error comparisonMsg
  else
    searchLoop
      (fun mid => solver_power nm baseline_pct comparison_pct alpha alternative
        pre_experiment_correlation num_points ⌊mid⌋)
      power 40 10 1000000

/-- `ab_test_sample_size` from `powercalculator.py`, with the 51 grid
points of the source. -/
def ab_test_sample_size (nm : NormalModel)
    (baseline_pct comparison_pct alpha power : ℝ) (alternative : Alternative)
    (pre_experiment_correlation : ℝ) : Except String ℝ :=
  ab_test_sample_size_with_points nm 51 baseline_pct comparison_pct alpha power
    alternative pre_experiment_correlation

/-- One point of the `/mde-curve` response (`MdeCurvePoint` in `api.py`). -/
structure MdeCurvePoint where
  relativeLiftPct : ℝ
  absoluteLiftPct : ℝ
  comparisonPct : ℝ
  sampleSizePerVariant : ℝ

/-- `numpy.geomspace a b num` over the reals (`endpoint=True`). -/
def geomspace (a b : ℝ) (num : ℕ) : List ℝ :=
  if num = 1 then [a]
  else (List.range num).map fun i : ℕ => a * Real.rpow (b / a) ((i : ℝ) / ((num : ℝ) - 1))

/-- The loop of `get_mde_curve` in `api.py`, folded over the list of
relative lifts: lifts whose comparison rate reaches 100 are skipped,
lifts whose solved sample size reaches 1,000,000 are skipped, a raised
error propagates. -/
def mde_loop (nm : NormalModel) (baselinePct alpha power : ℝ)
    (alternative : Alternative) (correlation : ℝ) :
    List ℝ → Except String (List MdeCurvePoint)
  | [] => .ok []
  | rel_lift :: rest =>
      let comparison_pct := baselinePct * (1 + rel_lift / 100)
      if 100 ≤ comparison_pct then
        mde_loop nm baselinePct alpha power alternative correlation rest
      else
        match ab_test_sample_size nm baselinePct comparison_pct alpha power
            alternative correlation with
        | .error e => .error e
        | .ok n_per_variant =>
            match mde_loop nm baselinePct alpha power alternative correlation rest with
            | .error e => .error e
            | .ok pts =>
                .ok (if 1000000 ≤ n_per_variant then pts
                  else { relativeLiftPct := rel_lift
                         absoluteLiftPct := comparison_pct - baselinePct
                         comparisonPct := comparison_pct
                         sampleSizePerVariant := n_per_variant } :: pts)

/-- `get_mde_curve` from `api.py`: geometric sweep of relative lifts from
1 to 100. -/
def get_mde_curve (nm : NormalModel) (baselinePct alpha power : ℝ)
    (alternative : Alternative) (numPoints : ℕ) (correlation : ℝ) :
    Except String (List MdeCurvePoint) :=
  mde_loop nm baselinePct alpha power alternative correlation
    (geomspace 1 100 numPoints)

/-- Degenerate normal model (constant CDF one half, inverse CDF zero)
used to instantiate the abstract model in concrete evaluations. -/
def nmHalf : NormalModel where
  Phi := fun _ => 1 / 2
  PhiInv := fun _ => 0

/-! Helper lemmas. -/

/-- On the valid range the CUPED factor is `sqrt (1 - c ^ 2)`. -/
theorem cuped_factor_eq (c : ℝ) (h0 : 0 ≤ c) (h1 : c < 1) :
    cuped_variance_reduction_factor c = .ok (Real.sqrt (1 - c ^ 2)) := by
  have h : ¬ (c < 0 ∨ 1 ≤ c) := by
    push_neg
    exact ⟨h0, h1⟩
  unfold cuped_variance_reduction_factor
  rw [if_neg h]

/-- The CUPED factor succeeds exactly on `[0, 1)`. -/
theorem cuped_factor_ok_iff (c : ℝ) :
    (∃ f, cuped_variance_reduction_factor c = .ok f) ↔ (0 ≤ c ∧ c < 1) := by
  constructor
  · rintro ⟨f, hf⟩
    unfold cuped_variance_reduction_factor at hf
    split_ifs at hf with h h0
    · subst h0
      exact ⟨le_refl 0, by norm_num⟩
    · push_neg at h
      exact h
  · rintro ⟨h0, h1⟩
    exact ⟨_, cuped_factor_eq c h0 h1⟩

/-- On valid inputs `power_curve_proportions` succeeds with the body of
the computation. -/
theorem power_curve_eval (nm : NormalModel) (bpct cpct : ℝ) (n : ℤ) (alpha : ℝ)
    (alt : Alternative) (np : ℕ) (rho : ℝ)
    (hn : 0 < n) (hb : 0 < bpct / 100 ∧ bpct / 100 < 1)
    (hc : 0 < cpct / 100 ∧ cpct / 100 < 1) (hr0 : 0 ≤ rho) (hr1 : rho < 1) :
    power_curve_proportions nm bpct cpct n alpha alt np rho =
      .ok (power_curve_core nm bpct cpct n alpha alt np rho
        (Real.sqrt (1 - rho ^ 2))) := by
  unfold power_curve_proportions
  rw [if_neg (not_le.mpr hn), if_neg (not_not_intro hb), if_neg (not_not_intro hc),
    cuped_factor_eq rho hr0 hr1]

/-- Clamping into `[0, 1]` is idempotent. -/
theorem clamp_idem (b : ℝ) :
    min 1 (max 0 (min 1 (max 0 b))) = min 1 (max 0 b) := by
  have h0 : 0 ≤ min 1 (max 0 b) := le_min (by norm_num) (le_max_left 0 b)
  rw [max_eq_right h0, min_eq_right (min_le_left 1 (max 0 b))]

/-- A clamped value that is already inside `[0, 1]` is unchanged. -/
theorem clamp_eq_self (b : ℝ) (h0 : 0 ≤ b) (h1 : b ≤ 1) :
    min 1 (max 0 b) = b := by
  rw [max_eq_right h0, min_eq_right h1]

/-- `linspace` always has exactly `num` entries. -/
theorem linspace_length (a b : ℝ) (num : ℕ) : (linspace a b num).length = num := by
  unfold linspace
  split_ifs with h
  · simp [h]
  · simp

/-- The generic entry of `linspace`. -/
theorem linspace_mem_iff (a b : ℝ) (num : ℕ) (hnum : 2 ≤ num) (y : ℝ) :
    y ∈ linspace a b num ↔
      ∃ i : ℕ, i < num ∧ y = a + (b - a) * (i : ℝ) / ((num : ℝ) - 1) := by
  unfold linspace
  rw [if_neg (by omega)]
  simp only [List.mem_map, List.mem_range]
  constructor
  · rintro ⟨i, hi, h⟩
    exact ⟨i, hi, h.symm⟩
  · rintro ⟨i, hi, h⟩
    exact ⟨i, hi, h.symm⟩

/-- `linspace` is strictly increasing when the span is nonempty. -/
theorem linspace_pairwise (a b : ℝ) (num : ℕ) (hnum : 2 ≤ num) (hab : a < b) :
    (linspace a b num).Pairwise (· < ·) := by
  unfold linspace
  rw [if_neg (by omega)]
  refine (List.pairwise_lt_range num).map _ ?_
  intro i j hij
  have hden : (0 : ℝ) < (num : ℝ) - 1 := by
    have : (2 : ℝ) ≤ (num : ℝ) := by exact_mod_cast hnum
    linarith
  have hba : (0 : ℝ) < b - a := by linarith
  have hij' : (i : ℝ) < (j : ℝ) := by exact_mod_cast hij
  have hmul : (b - a) * (i : ℝ) < (b - a) * (j : ℝ) :=
    mul_lt_mul_of_pos_left hij' hba
  have hdiv : (b - a) * (i : ℝ) / ((num : ℝ) - 1) < (b - a) * (j : ℝ) / ((num : ℝ) - 1) :=
    (div_lt_div_iff_of_pos_right hden).mpr hmul
  linarith

/-- Every `linspace` entry lies between the two endpoints. -/
theorem linspace_bounds (a b : ℝ) (num : ℕ) (hnum : 2 ≤ num) (hab : a ≤ b)
    (y : ℝ) (hy : y ∈ linspace a b num) : a ≤ y ∧ y ≤ b := by
  obtain ⟨i, hi, rfl⟩ := (linspace_mem_iff a b num hnum y).mp hy
  have hden : (0 : ℝ) < (num : ℝ) - 1 := by
    have : (2 : ℝ) ≤ (num : ℝ) := by exact_mod_cast hnum
    linarith
  have hi' : (i : ℝ) ≤ (num : ℝ) - 1 := by
    have : (i : ℝ) + 1 ≤ (num : ℝ) := by exact_mod_cast hi
    linarith
  have hnn : 0 ≤ (b - a) * (i : ℝ) / ((num : ℝ) - 1) := by
    apply div_nonneg _ (le_of_lt hden)
    exact mul_nonneg (by linarith) (Nat.cast_nonneg i)
  have hub : (b - a) * (i : ℝ) / ((num : ℝ) - 1) ≤ b - a := by
    rw [div_le_iff₀ hden]
    exact mul_le_mul_of_nonneg_left hi' (by linarith)
  constructor <;> linarith

/-- The left endpoint is the first `linspace` entry. -/
theorem linspace_mem_left (a b : ℝ) (num : ℕ) (hnum : 2 ≤ num) :
    a ∈ linspace a b num := by
  rw [linspace_mem_iff a b num hnum]
  exact ⟨0, by omega, by simp⟩

/-- The right endpoint is the last `linspace` entry. -/
theorem linspace_mem_right (a b : ℝ) (num : ℕ) (hnum : 2 ≤ num) :
    b ∈ linspace a b num := by
  rw [linspace_mem_iff a b num hnum]
  refine ⟨num - 1, by omega, ?_⟩
  have hcast : ((num - 1 : ℕ) : ℝ) = (num : ℝ) - 1 := by
    have : 1 ≤ num := by omega
    push_cast [this]
    ring
  have hden : ((num : ℝ) - 1) ≠ 0 := by
    have : (2 : ℝ) ≤ (num : ℝ) := by exact_mod_cast hnum
    linarith
  rw [hcast, mul_div_assoc, div_self hden, mul_one]
  ring

/-- The raw per-group standard error is positive on valid inputs. -/
theorem se_raw_pos (p nr : ℝ) (hp0 : 0 < p) (hp1 : p < 1) (hn : 0 < nr) :
    0 < Real.sqrt (p * (1 - p) / nr) :=
  Real.sqrt_pos.mpr (div_pos (mul_pos hp0 (by linarith)) hn)

/-- The CUPED factor value is positive on the valid correlation range. -/
theorem cuped_factor_pos (c : ℝ) (h0 : 0 ≤ c) (h1 : c < 1) :
    0 < Real.sqrt (1 - c ^ 2) := by
  apply Real.sqrt_pos.mpr
  have : c ^ 2 < 1 := by
    have := pow_lt_one₀ h0 h1 (two_ne_zero)
    exact this
  linarith

/-- A successful `searchLoop` run returns a value inside the current
bracket. -/
theorem searchLoop_bounds (g : ℝ → Except String ℝ) (t : ℝ) :
    ∀ (k : ℕ) (low high v : ℝ), low ≤ high →
      searchLoop g t k low high = .ok v → low ≤ v ∧ v ≤ high := by
  intro k
  induction k with
  | zero =>
      intro low high v hlh hv
      unfold searchLoop at hv
      rw [Except.ok.injEq] at hv
      exact ⟨hv ▸ hlh, le_of_eq hv.symm⟩
  | succ k ih =>
      intro low high v hlh hv
      unfold searchLoop at hv
      rcases hg : g ((low + high) / 2) with e | p <;> rw [hg] at hv
      · exact absurd hv (by simp)
      · dsimp only at hv
        split_ifs at hv with ht
        · obtain ⟨h1, h2⟩ := ih low ((low + high) / 2) v (by linarith) hv
          exact ⟨h1, by linarith⟩
        · obtain ⟨h1, h2⟩ := ih ((low + high) / 2) high v (by linarith) hv
          exact ⟨by linarith, h2⟩

/-- If the power oracle succeeds on the whole search interval the loop
succeeds. -/
theorem searchLoop_ok (g : ℝ → Except String ℝ) (t a b : ℝ)
    (hg : ∀ m, a ≤ m → m ≤ b → ∃ p, g m = .ok p) :
    ∀ (k : ℕ) (low high : ℝ), a ≤ low → low ≤ high → high ≤ b →
      ∃ v, searchLoop g t k low high = .ok v := by
  intro k
  induction k with
  | zero =>
      intro low high _ _ _
      exact ⟨high, rfl⟩
  | succ k ih =>
      intro low high hal hlh hhb
      obtain ⟨p, hp⟩ := hg ((low + high) / 2) (by linarith) (by linarith)
      unfold searchLoop
      rw [hp]
      dsimp only
      split_ifs with ht
      · exact ih low ((low + high) / 2) hal (by linarith) (by linarith)
      · exact ih ((low + high) / 2) high (by linarith) (by linarith) hhb

/-- If the evaluated power misses the target on the whole interval, the
loop never moves the high bound and returns it unchanged. -/
theorem searchLoop_const_fail (g : ℝ → Except String ℝ) (t a b : ℝ)
    (hg : ∀ m, a ≤ m → m ≤ b → ∃ p, g m = .ok p ∧ p < t) :
    ∀ (k : ℕ) (low high : ℝ), a ≤ low → low ≤ high → high ≤ b →
      searchLoop g t k low high = .ok high := by
  intro k
  induction k with
  | zero =>
      intro low high _ _ _
      rfl
  | succ k ih =>
      intro low high hal hlh hhb
      obtain ⟨p, hp, hpt⟩ := hg ((low + high) / 2) (by linarith) (by linarith)
      unfold searchLoop
      rw [hp]
      dsimp only
      rw [if_neg (not_le.mpr hpt)]
      exact ih ((low + high) / 2) high (by linarith) (by linarith) hhb

/-- Bisection is antitone in the power oracle: a pointwise larger power
never yields a larger returned bound. -/
theorem searchLoop_mono (gA gB : ℝ → Except String ℝ) (t a b : ℝ)
    (hA : ∀ m, a ≤ m → m ≤ b → ∃ p, gA m = .ok p)
    (hB : ∀ m, a ≤ m → m ≤ b → ∃ p, gB m = .ok p)
    (hdom : ∀ m, a ≤ m → m ≤ b → ∀ pA pB, gA m = .ok pA → gB m = .ok pB → pA ≤ pB) :
    ∀ (k : ℕ) (low high : ℝ), a ≤ low → low ≤ high → high ≤ b →
      ∃ vA vB, searchLoop gA t k low high = .ok vA ∧
        searchLoop gB t k low high = .ok vB ∧ vB ≤ vA := by
  intro k
  induction k with
  | zero =>
      intro low high _ _ _
      exact ⟨high, high, rfl, rfl, le_refl high⟩
  | succ k ih =>
      intro low high hal hlh hhb
      obtain ⟨pA, hpA⟩ := hA ((low + high) / 2) (by linarith) (by linarith)
      obtain ⟨pB, hpB⟩ := hB ((low + high) / 2) (by linarith) (by linarith)
      have hle : pA ≤ pB :=
        hdom ((low + high) / 2) (by linarith) (by linarith) pA pB hpA hpB
      unfold searchLoop
      rw [hpA, hpB]
      dsimp only
      by_cases htA : t ≤ pA
      · rw [if_pos htA, if_pos (le_trans htA hle)]
        exact ih low ((low + high) / 2) hal (by linarith) (by linarith)
      · by_cases htB : t ≤ pB
        · rw [if_neg htA, if_pos htB]
          obtain ⟨vA, hvA⟩ :=
            searchLoop_ok gA t a b hA k ((low + high) / 2) high (by linarith)
              (by linarith) hhb
          obtain ⟨vB, hvB⟩ :=
            searchLoop_ok gB t a b hB k low ((low + high) / 2) hal (by linarith)
              (by linarith)
          have h1 := searchLoop_bounds gA t k ((low + high) / 2) high vA (by linarith) hvA
          have h2 := searchLoop_bounds gB t k low ((low + high) / 2) vB (by linarith) hvB
          exact ⟨vA, vB, hvA, hvB, le_trans h2.2 h1.1⟩
        · rw [if_neg htA, if_neg htB]
          exact ih ((low + high) / 2) high (by linarith) (by linarith) hhb

/-- `solver_power` on valid inputs: the power of the computed curve. -/
theorem solver_power_eval (nm : NormalModel) (bpct cpct alpha : ℝ)
    (alt : Alternative) (rho : ℝ) (np : ℕ) (n : ℤ)
    (hn : 0 < n) (hb : 0 < bpct / 100 ∧ bpct / 100 < 1)
    (hc : 0 < cpct / 100 ∧ cpct / 100 < 1) (hr0 : 0 ≤ rho) (hr1 : rho < 1) :
    solver_power nm bpct cpct alpha alt rho np n =
      .ok ((power_curve_core nm bpct cpct n alpha alt np rho
        (Real.sqrt (1 - rho ^ 2))).power) := by
  unfold solver_power
  rw [power_curve_eval nm bpct cpct n alpha alt np rho hn hb hc hr0 hr1]
  rfl

/-- `ab_test_sample_size_with_points` on valid rates reduces to the
bisection loop. -/
theorem ab_test_eval (nm : NormalModel) (np : ℕ) (bpct cpct alpha pw : ℝ)
    (alt : Alternative) (rho : ℝ)
    (hb : 0 < bpct / 100 ∧ bpct / 100 < 1)
    (hc : 0 < cpct / 100 ∧ cpct / 100 < 1) :
    ab_test_sample_size_with_points nm np bpct cpct alpha pw alt rho =
      searchLoop
        (fun mid => solver_power nm bpct cpct alpha alt rho np ⌊mid⌋)
        pw 40 10 1000000 := by
  unfold ab_test_sample_size_with_points
  rw [if_neg (not_not_intro hb), if_neg (not_not_intro hc)]

/-- A midpoint at least 10 has a positive integer floor. -/
theorem floor_pos_of_ten_le (m : ℝ) (hm : 10 ≤ m) : 0 < ⌊m⌋ := by
  have h10 : (10 : ℤ) ≤ ⌊m⌋ := Int.le_floor.mpr (by exact_mod_cast hm)
  omega

/-- The solver succeeds on valid inputs, inside the search bracket. -/
theorem ab_test_ok (nm : NormalModel) (np : ℕ) (bpct cpct alpha pw : ℝ)
    (alt : Alternative) (rho : ℝ)
    (hb : 0 < bpct / 100 ∧ bpct / 100 < 1)
    (hc : 0 < cpct / 100 ∧ cpct / 100 < 1) (hr0 : 0 ≤ rho) (hr1 : rho < 1) :
    ∃ v, ab_test_sample_size_with_points nm np bpct cpct alpha pw alt rho = .ok v ∧
      10 ≤ v ∧ v ≤ 1000000 := by
  rw [ab_test_eval nm np bpct cpct alpha pw alt rho hb hc]
  have hg : ∀ m : ℝ, (10 : ℝ) ≤ m → m ≤ 1000000 →
      ∃ p, solver_power nm bpct cpct alpha alt rho np ⌊m⌋ = .ok p := by
    intro m hm _
    exact ⟨_, solver_power_eval nm bpct cpct alpha alt rho np ⌊m⌋
      (floor_pos_of_ten_le m hm) hb hc hr0 hr1⟩
  obtain ⟨v, hv⟩ :=
    searchLoop_ok (fun mid => solver_power nm bpct cpct alpha alt rho np ⌊mid⌋)
      pw 10 1000000 hg 40 10 1000000 (le_refl 10) (by norm_num) (le_refl 1000000)
  have hbounds :=
    searchLoop_bounds (fun mid => solver_power nm bpct cpct alpha alt rho np ⌊mid⌋)
      pw 40 10 1000000 v (by norm_num) hv
  exact ⟨v, hv, hbounds.1, hbounds.2⟩

/-- The adjusted standard error is positive on valid inputs. -/
theorem adjusted_se_pos (p nr f : ℝ) (hp0 : 0 < p) (hp1 : p < 1) (hn : 0 < nr)
    (hf : 0 < f) : 0 < adjusted_se p nr f :=
  mul_pos (se_raw_pos p nr hp0 hp1 hn) hf

/-- `power_curve_proportions` either fails or returns the computed body. -/
theorem power_curve_cases (nm : NormalModel) (bpct cpct : ℝ) (n : ℤ) (alpha : ℝ)
    (alt : Alternative) (np : ℕ) (rho : ℝ) :
    (∃ e, power_curve_proportions nm bpct cpct n alpha alt np rho = .error e) ∨
      (∃ f, power_curve_proportions nm bpct cpct n alpha alt np rho =
        .ok (power_curve_core nm bpct cpct n alpha alt np rho f)) := by
  rcases hpc : power_curve_proportions nm bpct cpct n alpha alt np rho with e | r
  · exact Or.inl ⟨e, rfl⟩
  · right
    unfold power_curve_proportions at hpc
    split_ifs at hpc
    rcases hcf : cuped_variance_reduction_factor rho with e | f <;> rw [hcf] at hpc
    · exact absurd hpc (by simp)
    · rw [Except.ok.injEq] at hpc
      exact ⟨f, by rw [hpc]⟩

/-- On a nonnegative correlation the reduction percentage is the square
of the correlation, in percent. -/
theorem cuped_pct_eq (rho : ℝ) (hr0 : 0 ≤ rho) :
    cuped_variance_reduction_pct rho = rho ^ 2 * 100 := by
  unfold cuped_variance_reduction_pct
  split_ifs with h
  · have h0 : rho = 0 := le_antisymm h hr0
    rw [h0]
    norm_num
  · ring

/-! Claim theorems. -/

/-- Claim C3: for every input, the power evaluator clamps `beta` into
`[0, 1]` first and derives `power = 1 - beta` from the clamped value, so
`power + beta = 1` holds exactly and re-clamping `beta` changes
nothing. -/
theorem claim_C3 (nm : NormalModel) (bpct cpct : ℝ) (n : ℤ) (alpha : ℝ)
    (alt : Alternative) (np : ℕ) (rho : ℝ) :
    (power_curve_proportions nm bpct cpct n alpha alt np rho).map
        (fun r => r.power + r.beta) =
      (power_curve_proportions nm bpct cpct n alpha alt np rho).map
        (fun _ => (1 : ℝ))
    ∧ (power_curve_proportions nm bpct cpct n alpha alt np rho).map
        (fun r => r.power) =
      (power_curve_proportions nm bpct cpct n alpha alt np rho).map
        (fun r => 1 - r.beta)
    ∧ (power_curve_proportions nm bpct cpct n alpha alt np rho).map
        (fun r => min 1 (max 0 r.beta)) =
      (power_curve_proportions nm bpct cpct n alpha alt np rho).map
        (fun r => r.beta) := by
  obtain ⟨e, he⟩ | ⟨f, hf⟩ := power_curve_cases nm bpct cpct n alpha alt np rho
  · rw [he]
    exact ⟨rfl, rfl, rfl⟩
  · rw [hf]
    have hpb : (power_curve_core nm bpct cpct n alpha alt np rho f).power =
        1 - (power_curve_core nm bpct cpct n alpha alt np rho f).beta := rfl
    have hclamp : ∃ b0, (power_curve_core nm bpct cpct n alpha alt np rho f).beta =
        min 1 (max 0 b0) := ⟨_, rfl⟩
    obtain ⟨b0, hb0⟩ := hclamp
    refine ⟨?_, ?_, ?_⟩ <;> simp only [Except.map] <;> rw [Except.ok.injEq]
    · rw [hpb]
      ring
    · rw [hpb]
    · rw [hb0, clamp_idem]

/-- Claim C4: on valid inputs the variance model multiplies each group's
raw standard error `sqrt(p(1-p)/n)` by the same CUPED factor
`sqrt(1 - correlation^2)`, the reduction percentage is
`correlation^2 * 100`, and a zero correlation gives factor exactly 1 and
percentage exactly 0. -/
theorem claim_C4 (nm : NormalModel) (bpct cpct : ℝ) (n : ℤ) (alpha : ℝ)
    (alt : Alternative) (np : ℕ) (rho : ℝ)
    (hn : 0 < n) (hb : 0 < bpct / 100 ∧ bpct / 100 < 1)
    (hc : 0 < cpct / 100 ∧ cpct / 100 < 1) (hr0 : 0 ≤ rho) (hr1 : rho < 1) :
    cuped_variance_reduction_factor rho = .ok (Real.sqrt (1 - rho ^ 2))
    ∧ cuped_variance_reduction_pct rho = rho ^ 2 * 100
    ∧ (rho = 0 → cuped_variance_reduction_factor rho = .ok 1 ∧
        cuped_variance_reduction_pct rho = 0)
    ∧ ∃ r, power_curve_proportions nm bpct cpct n alpha alt np rho = .ok r ∧
        r.null_pdf = r.x.map (normal_pdf (bpct / 100)
          (Real.sqrt (bpct / 100 * (1 - bpct / 100) / (n : ℝ)) *
            Real.sqrt (1 - rho ^ 2)))
      ∧ r.alt_pdf = r.x.map (normal_pdf (cpct / 100)
          (Real.sqrt (cpct / 100 * (1 - cpct / 100) / (n : ℝ)) *
            Real.sqrt (1 - rho ^ 2)))
      ∧ r.variance_reduction_pct = rho ^ 2 * 100 := by
  refine ⟨cuped_factor_eq rho hr0 hr1, cuped_pct_eq rho hr0, ?_, ?_⟩
  · intro h0
    subst h0
    constructor
    · rw [cuped_factor_eq 0 (le_refl 0) (by norm_num)]
      norm_num
    · rw [cuped_pct_eq 0 (le_refl 0)]
      norm_num
  · refine ⟨_, power_curve_eval nm bpct cpct n alpha alt np rho hn hb hc hr0 hr1,
      rfl, rfl, ?_⟩
    exact cuped_pct_eq rho hr0

/-- Claim C4 witness: the theorem evaluated at a concrete valid input. -/
theorem claim_C4_witness :
    ((0 : ℤ) < 100 ∧ ((0 : ℝ) < 50 / 100 ∧ (50 : ℝ) / 100 < 1) ∧
      ((0 : ℝ) < 40 / 100 ∧ (40 : ℝ) / 100 < 1) ∧ (0 : ℝ) ≤ 0 ∧ (0 : ℝ) < 1)
    ∧ (cuped_variance_reduction_factor 0 = .ok (Real.sqrt (1 - (0 : ℝ) ^ 2))
      ∧ cuped_variance_reduction_pct 0 = (0 : ℝ) ^ 2 * 100
      ∧ ((0 : ℝ) = 0 → cuped_variance_reduction_factor 0 = .ok 1 ∧
          cuped_variance_reduction_pct 0 = 0)
      ∧ ∃ r, power_curve_proportions nmHalf 50 40 100 (1 / 20) .twoSided 201 0 = .ok r ∧
          r.null_pdf = r.x.map (normal_pdf ((50 : ℝ) / 100)
            (Real.sqrt ((50 : ℝ) / 100 * (1 - 50 / 100) / ((100 : ℤ) : ℝ)) *
              Real.sqrt (1 - (0 : ℝ) ^ 2)))
        ∧ r.alt_pdf = r.x.map (normal_pdf ((40 : ℝ) / 100)
            (Real.sqrt ((40 : ℝ) / 100 * (1 - 40 / 100) / ((100 : ℤ) : ℝ)) *
              Real.sqrt (1 - (0 : ℝ) ^ 2)))
        ∧ r.variance_reduction_pct = (0 : ℝ) ^ 2 * 100) :=
  ⟨⟨by norm_num, ⟨by norm_num, by norm_num⟩, ⟨by norm_num, by norm_num⟩,
      le_refl 0, by norm_num⟩,
    claim_C4 nmHalf 50 40 100 (1 / 20) .twoSided 201 0 (by norm_num)
      ⟨by norm_num, by norm_num⟩ ⟨by norm_num, by norm_num⟩ (le_refl 0) (by norm_num)⟩

/-- Claim C9: the power evaluator fails if and only if the sample size is
nonpositive, a rate is outside the open unit interval, or the
correlation is outside `[0, 1)`; and every call either fully succeeds or
fails with one error. -/
theorem claim_C9 (nm : NormalModel) (bpct cpct : ℝ) (n : ℤ) (alpha : ℝ)
    (alt : Alternative) (np : ℕ) (rho : ℝ) :
    ((∃ r, power_curve_proportions nm bpct cpct n alpha alt np rho = .ok r) ↔
      (0 < n ∧ (0 < bpct / 100 ∧ bpct / 100 < 1) ∧
        (0 < cpct / 100 ∧ cpct / 100 < 1) ∧ 0 ≤ rho ∧ rho < 1))
    ∧ ((∃ r, power_curve_proportions nm bpct cpct n alpha alt np rho = .ok r) ∨
        (∃ e, power_curve_proportions nm bpct cpct n alpha alt np rho = .error e)) := by
  constructor
  · constructor
    · rintro ⟨r, hr⟩
      unfold power_curve_proportions at hr
      split_ifs at hr with h1 h2 h3
      rcases hcf : cuped_variance_reduction_factor rho with e | f <;> rw [hcf] at hr
      · exact absurd hr (by simp)
      · have hval := (cuped_factor_ok_iff rho).mp ⟨f, hcf⟩
        exact ⟨not_le.mp h1, h2, h3, hval.1, hval.2⟩
    · rintro ⟨hn, hb, hc, hr0, hr1⟩
      exact ⟨_, power_curve_eval nm bpct cpct n alpha alt np rho hn hb hc hr0 hr1⟩
  · rcases hpc : power_curve_proportions nm bpct cpct n alpha alt np rho with e | r
    · exact Or.inr ⟨e, rfl⟩
    · exact Or.inl ⟨r, rfl⟩

/-- Claim C10: the reduction-percentage helper returns 0 for every
nonpositive correlation without failing, while the factor helper fails
on the same strictly negative correlation. -/
theorem claim_C10 (rho : ℝ) (hrho : rho ≤ 0) :
    cuped_variance_reduction_pct rho = 0
    ∧ (rho < 0 → cuped_variance_reduction_factor rho = .error correlationMsg) := by
  constructor
  · unfold cuped_variance_reduction_pct
    rw [if_pos hrho]
  · intro hneg
    unfold cuped_variance_reduction_factor
    rw [if_pos (Or.inl hneg), if_neg (ne_of_lt hneg)]

/-- Claim C10 witness: the theorem evaluated at correlation `-1/2`. -/
theorem claim_C10_witness :
    (-(1 / 2) : ℝ) ≤ 0
    ∧ (cuped_variance_reduction_pct (-(1 / 2)) = 0
      ∧ ((-(1 / 2) : ℝ) < 0 →
          cuped_variance_reduction_factor (-(1 / 2)) = .error correlationMsg)) :=
  ⟨by norm_num, claim_C10 (-(1 / 2)) (by norm_num)⟩

/-- Claim C2: on valid rates the solver is exactly a 40-iteration
bisection on `[10, 1000000]` probing the power model at the floor of the
midpoint and returning the final high bound, so any returned value lies
in `[10, 1000000]`. -/
theorem claim_C2 (nm : NormalModel) (bpct cpct alpha pw : ℝ)
    (alt : Alternative) (rho : ℝ)
    (hb : 0 < bpct / 100 ∧ bpct / 100 < 1)
    (hc : 0 < cpct / 100 ∧ cpct / 100 < 1) :
    ab_test_sample_size nm bpct cpct alpha pw alt rho =
      searchLoop
        (fun mid => solver_power nm bpct cpct alpha alt rho 51 ⌊mid⌋)
        pw 40 10 1000000
    ∧ ∀ v, ab_test_sample_size nm bpct cpct alpha pw alt rho = .ok v →
        10 ≤ v ∧ v ≤ 1000000 := by
  constructor
  · exact ab_test_eval nm 51 bpct cpct alpha pw alt rho hb hc
  · intro v hv
    have hv' : searchLoop
        (fun mid => solver_power nm bpct cpct alpha alt rho 51 ⌊mid⌋)
        pw 40 10 1000000 = .ok v := by
      rw [← ab_test_eval nm 51 bpct cpct alpha pw alt rho hb hc]
      exact hv
    exact searchLoop_bounds _ pw 40 10 1000000 v (by norm_num) hv'

/-- Claim C2 witness: the theorem evaluated at a concrete valid input. -/
theorem claim_C2_witness :
    (((0 : ℝ) < 50 / 100 ∧ (50 : ℝ) / 100 < 1) ∧
      ((0 : ℝ) < 40 / 100 ∧ (40 : ℝ) / 100 < 1))
    ∧ (ab_test_sample_size nmHalf 50 40 (1 / 20) (4 / 5) .greater 0 =
        searchLoop
          (fun mid => solver_power nmHalf 50 40 (1 / 20) .greater 0 51 ⌊mid⌋)
          (4 / 5) 40 10 1000000
      ∧ ∀ v, ab_test_sample_size nmHalf 50 40 (1 / 20) (4 / 5) .greater 0 = .ok v →
          10 ≤ v ∧ v ≤ 1000000) :=
  ⟨⟨⟨by norm_num, by norm_num⟩, ⟨by norm_num, by norm_num⟩⟩,
    claim_C2 nmHalf 50 40 (1 / 20) (4 / 5) .greater 0
      ⟨by norm_num, by norm_num⟩ ⟨by norm_num, by norm_num⟩⟩

/-- The solver's power reading does not depend on the density
resolution. -/
theorem solver_power_np (nm : NormalModel) (bpct cpct alpha : ℝ)
    (alt : Alternative) (rho : ℝ) (np1 np2 : ℕ) (n : ℤ) :
    solver_power nm bpct cpct alpha alt rho np1 n =
      solver_power nm bpct cpct alpha alt rho np2 n := by
  unfold solver_power power_curve_proportions
  split_ifs <;> try rfl
  rcases hcf : cuped_variance_reduction_factor rho with e | f <;> rfl

/-- Claim C6: the density resolution changes only the length of the
sampled arrays; power, beta and both critical thresholds are identical
for any two resolutions, and the solver returns the same result whatever
resolution it searches with. -/
theorem claim_C6 (nm : NormalModel) (bpct cpct : ℝ) (n : ℤ) (alpha pw : ℝ)
    (alt : Alternative) (rho : ℝ) (np1 np2 : ℕ) :
    (power_curve_proportions nm bpct cpct n alpha alt np1 rho).map
        (fun r => (r.power, r.beta, r.crit_low, r.crit_high)) =
      (power_curve_proportions nm bpct cpct n alpha alt np2 rho).map
        (fun r => (r.power, r.beta, r.crit_low, r.crit_high))
    ∧ (power_curve_proportions nm bpct cpct n alpha alt np1 rho).map
        (fun r => (r.x.length, r.null_pdf.length, r.alt_pdf.length)) =
      (power_curve_proportions nm bpct cpct n alpha alt np1 rho).map
        (fun _ => (np1, np1, np1))
    ∧ ∀ np : ℕ, ab_test_sample_size_with_points nm np bpct cpct alpha pw alt rho =
        ab_test_sample_size nm bpct cpct alpha pw alt rho := by
  refine ⟨?_, ?_, ?_⟩
  · unfold power_curve_proportions
    split_ifs <;> try rfl
    rcases hcf : cuped_variance_reduction_factor rho with e | f <;> rfl
  · obtain ⟨e, he⟩ | ⟨f, hf⟩ := power_curve_cases nm bpct cpct n alpha alt np1 rho
    · rw [he]
      rfl
    · rw [hf]
      simp only [Except.map]
      rw [Except.ok.injEq]
      refine Prod.ext (linspace_length _ _ np1) (Prod.ext ?_ ?_)
      · show ((linspace _ _ np1).map _).length = np1
        rw [List.length_map]
        exact linspace_length _ _ np1
      · show ((linspace _ _ np1).map _).length = np1
        rw [List.length_map]
        exact linspace_length _ _ np1
  · intro np
    show ab_test_sample_size_with_points nm np bpct cpct alpha pw alt rho =
      ab_test_sample_size_with_points nm 51 bpct cpct alpha pw alt rho
    unfold ab_test_sample_size_with_points
    have hfun : (fun mid : ℝ => solver_power nm bpct cpct alpha alt rho np ⌊mid⌋) =
        fun mid : ℝ => solver_power nm bpct cpct alpha alt rho 51 ⌊mid⌋ :=
      funext fun mid => solver_power_np nm bpct cpct alpha alt rho np 51 ⌊mid⌋
    rw [hfun]

/-- Claim C7: on valid inputs the x-axis is `numPoints` evenly spaced
samples spanning the 4-standard-deviation envelope clipped to `[0, 1]`,
it is strictly increasing, and both group means lie inside its range. -/
theorem claim_C7 (nm : NormalModel) (bpct cpct : ℝ) (n : ℤ) (alpha : ℝ)
    (alt : Alternative) (np : ℕ) (rho : ℝ)
    (hn : 0 < n) (hb : 0 < bpct / 100 ∧ bpct / 100 < 1)
    (hc : 0 < cpct / 100 ∧ cpct / 100 < 1) (hr0 : 0 ≤ rho) (hr1 : rho < 1)
    (hnp : 2 ≤ np) :
    ∃ r lo hi, power_curve_proportions nm bpct cpct n alpha alt np rho = .ok r
      ∧ lo = max 0 (min (bpct / 100) (cpct / 100) -
          4 * max (adjusted_se (bpct / 100) ((n : ℤ) : ℝ) (Real.sqrt (1 - rho ^ 2)))
            (adjusted_se (cpct / 100) ((n : ℤ) : ℝ) (Real.sqrt (1 - rho ^ 2))))
      ∧ hi = min 1 (max (bpct / 100) (cpct / 100) +
          4 * max (adjusted_se (bpct / 100) ((n : ℤ) : ℝ) (Real.sqrt (1 - rho ^ 2)))
            (adjusted_se (cpct / 100) ((n : ℤ) : ℝ) (Real.sqrt (1 - rho ^ 2))))
      ∧ r.x = linspace lo hi np
      ∧ r.x.length = np
      ∧ r.x.Pairwise (· < ·)
      ∧ lo ∈ r.x ∧ hi ∈ r.x
      ∧ (∀ y ∈ r.x, lo ≤ y ∧ y ≤ hi)
      ∧ lo ≤ bpct / 100 ∧ bpct / 100 ≤ hi
      ∧ lo ≤ cpct / 100 ∧ cpct / 100 ≤ hi := by
  have hnr : (0 : ℝ) < ((n : ℤ) : ℝ) := by exact_mod_cast hn
  have hfpos : 0 < Real.sqrt (1 - rho ^ 2) := cuped_factor_pos rho hr0 hr1
  have hse0 : 0 < adjusted_se (bpct / 100) ((n : ℤ) : ℝ) (Real.sqrt (1 - rho ^ 2)) :=
    adjusted_se_pos _ _ _ hb.1 hb.2 hnr hfpos
  set se0 := adjusted_se (bpct / 100) ((n : ℤ) : ℝ) (Real.sqrt (1 - rho ^ 2)) with hse0def
  set se1 := adjusted_se (cpct / 100) ((n : ℤ) : ℝ) (Real.sqrt (1 - rho ^ 2)) with hse1def
  set lo := max 0 (min (bpct / 100) (cpct / 100) - 4 * max se0 se1) with hlodef
  set hi := min 1 (max (bpct / 100) (cpct / 100) + 4 * max se0 se1) with hhidef
  have hsm : 0 < max se0 se1 := lt_max_iff.mpr (Or.inl hse0)
  have hminp : 0 < min (bpct / 100) (cpct / 100) := lt_min hb.1 hc.1
  have hmaxp : max (bpct / 100) (cpct / 100) < 1 := max_lt hb.2 hc.2
  have hlo_lt : lo < min (bpct / 100) (cpct / 100) := by
    rw [hlodef]
    exact max_lt hminp (by linarith)
  have hhi_gt : max (bpct / 100) (cpct / 100) < hi := by
    rw [hhidef]
    exact lt_min hmaxp (by linarith)
  have hab : lo < hi :=
    lt_of_lt_of_le hlo_lt (le_trans (min_le_max) (le_of_lt hhi_gt))
  refine ⟨_, lo, hi,
    power_curve_eval nm bpct cpct n alpha alt np rho hn hb hc hr0 hr1,
    hlodef, hhidef, rfl, linspace_length _ _ _, linspace_pairwise lo hi np hnp hab,
    linspace_mem_left lo hi np hnp, linspace_mem_right lo hi np hnp,
    linspace_bounds lo hi np hnp (le_of_lt hab), ?_, ?_, ?_, ?_⟩
  · exact le_trans (le_of_lt hlo_lt) (min_le_left _ _)
  · exact le_trans (le_max_left _ _) (le_of_lt hhi_gt)
  · exact le_trans (le_of_lt hlo_lt) (min_le_right _ _)
  · exact le_trans (le_max_right _ _) (le_of_lt hhi_gt)

/-- Claim C7 witness: the theorem evaluated at a concrete valid input. -/
theorem claim_C7_witness :
    ((0 : ℤ) < 100 ∧ ((0 : ℝ) < 50 / 100 ∧ (50 : ℝ) / 100 < 1) ∧
      ((0 : ℝ) < 40 / 100 ∧ (40 : ℝ) / 100 < 1) ∧ (0 : ℝ) ≤ 0 ∧ (0 : ℝ) < 1 ∧ 2 ≤ 5)
    ∧ (∃ r lo hi, power_curve_proportions nmHalf 50 40 100 (1 / 20) .twoSided 5 0 = .ok r
      ∧ lo = max 0 (min ((50 : ℝ) / 100) ((40 : ℝ) / 100) -
          4 * max (adjusted_se ((50 : ℝ) / 100) (((100 : ℤ) : ℤ) : ℝ) (Real.sqrt (1 - (0 : ℝ) ^ 2)))
            (adjusted_se ((40 : ℝ) / 100) (((100 : ℤ) : ℤ) : ℝ) (Real.sqrt (1 - (0 : ℝ) ^ 2))))
      ∧ hi = min 1 (max ((50 : ℝ) / 100) ((40 : ℝ) / 100) +
          4 * max (adjusted_se ((50 : ℝ) / 100) (((100 : ℤ) : ℤ) : ℝ) (Real.sqrt (1 - (0 : ℝ) ^ 2)))
            (adjusted_se ((40 : ℝ) / 100) (((100 : ℤ) : ℤ) : ℝ) (Real.sqrt (1 - (0 : ℝ) ^ 2))))
      ∧ r.x = linspace lo hi 5
      ∧ r.x.length = 5
      ∧ r.x.Pairwise (· < ·)
      ∧ lo ∈ r.x ∧ hi ∈ r.x
      ∧ (∀ y ∈ r.x, lo ≤ y ∧ y ≤ hi)
      ∧ lo ≤ (50 : ℝ) / 100 ∧ (50 : ℝ) / 100 ≤ hi
      ∧ lo ≤ (40 : ℝ) / 100 ∧ (40 : ℝ) / 100 ≤ hi) :=
  ⟨⟨by norm_num, ⟨by norm_num, by norm_num⟩, ⟨by norm_num, by norm_num⟩,
      le_refl 0, by norm_num, by norm_num⟩,
    claim_C7 nmHalf 50 40 100 (1 / 20) .twoSided 5 0 (by norm_num)
      ⟨by norm_num, by norm_num⟩ ⟨by norm_num, by norm_num⟩ (le_refl 0)
      (by norm_num) (by norm_num)⟩

/-- Claim C1: on valid inputs the evaluator places the critical
thresholds around the null mean scaled only by `se0`, with the z-value
taken at `1 - alpha/2` for two-sided tests and `1 - alpha` otherwise,
and the power is the corresponding tail mass of the alternative normal
distribution with mean `p1` and scale `se1`. -/
theorem claim_C1 (nm : NormalModel) (bpct cpct : ℝ) (n : ℤ) (alpha : ℝ)
    (alt : Alternative) (np : ℕ) (rho : ℝ)
    (hn : 0 < n) (hb : 0 < bpct / 100 ∧ bpct / 100 < 1)
    (hc : 0 < cpct / 100 ∧ cpct / 100 < 1) (hr0 : 0 ≤ rho) (hr1 : rho < 1)
    (hmono : Monotone nm.Phi) (hPhi0 : ∀ t, 0 ≤ nm.Phi t)
    (hPhi1 : ∀ t, nm.Phi t ≤ 1) (hz : 0 ≤ nm.PhiInv (1 - alpha / 2)) :
    ∃ r, power_curve_proportions nm bpct cpct n alpha alt np rho = .ok r ∧
      match alt with
      | .twoSided =>
          r.crit_low = some (bpct / 100 - nm.PhiInv (1 - alpha / 2) *
            adjusted_se (bpct / 100) (n : ℝ) (Real.sqrt (1 - rho ^ 2)))
          ∧ r.crit_high = some (bpct / 100 + nm.PhiInv (1 - alpha / 2) *
            adjusted_se (bpct / 100) (n : ℝ) (Real.sqrt (1 - rho ^ 2)))
          ∧ r.power = 1 -
            (nm.Phi ((bpct / 100 + nm.PhiInv (1 - alpha / 2) *
                adjusted_se (bpct / 100) (n : ℝ) (Real.sqrt (1 - rho ^ 2)) - cpct / 100) /
                adjusted_se (cpct / 100) (n : ℝ) (Real.sqrt (1 - rho ^ 2))) -
              nm.Phi ((bpct / 100 - nm.PhiInv (1 - alpha / 2) *
                adjusted_se (bpct / 100) (n : ℝ) (Real.sqrt (1 - rho ^ 2)) - cpct / 100) /
                adjusted_se (cpct / 100) (n : ℝ) (Real.sqrt (1 - rho ^ 2))))
      | .greater =>
          r.crit_low = none
          ∧ r.crit_high = some (bpct / 100 + nm.PhiInv (1 - alpha) *
            adjusted_se (bpct / 100) (n : ℝ) (Real.sqrt (1 - rho ^ 2)))
          ∧ r.power = 1 -
            nm.Phi ((bpct / 100 + nm.PhiInv (1 - alpha) *
              adjusted_se (bpct / 100) (n : ℝ) (Real.sqrt (1 - rho ^ 2)) - cpct / 100) /
              adjusted_se (cpct / 100) (n : ℝ) (Real.sqrt (1 - rho ^ 2)))
      | .less =>
          r.crit_high = none
          ∧ r.crit_low = some (bpct / 100 - nm.PhiInv (1 - alpha) *
            adjusted_se (bpct / 100) (n : ℝ) (Real.sqrt (1 - rho ^ 2)))
          ∧ r.power =
            nm.Phi ((bpct / 100 - nm.PhiInv (1 - alpha) *
              adjusted_se (bpct / 100) (n : ℝ) (Real.sqrt (1 - rho ^ 2)) - cpct / 100) /
              adjusted_se (cpct / 100) (n : ℝ) (Real.sqrt (1 - rho ^ 2))) := by
  have hnr : (0 : ℝ) < (n : ℝ) := by exact_mod_cast hn
  have hfpos : 0 < Real.sqrt (1 - rho ^ 2) := cuped_factor_pos rho hr0 hr1
  have hse0 : 0 ≤ adjusted_se (bpct / 100) (n : ℝ) (Real.sqrt (1 - rho ^ 2)) :=
    le_of_lt (adjusted_se_pos _ _ _ hb.1 hb.2 hnr hfpos)
  have hse1 : 0 < adjusted_se (cpct / 100) (n : ℝ) (Real.sqrt (1 - rho ^ 2)) :=
    adjusted_se_pos _ _ _ hc.1 hc.2 hnr hfpos
  refine ⟨_, power_curve_eval nm bpct cpct n alpha alt np rho hn hb hc hr0 hr1, ?_⟩
  cases alt with
  | twoSided =>
      refine ⟨rfl, rfl, ?_⟩
      have hzse : (0 : ℝ) ≤ nm.PhiInv (1 - alpha / 2) *
          adjusted_se (bpct / 100) (n : ℝ) (Real.sqrt (1 - rho ^ 2)) :=
        mul_nonneg hz hse0
      have hAB : (bpct / 100 - nm.PhiInv (1 - alpha / 2) *
            adjusted_se (bpct / 100) (n : ℝ) (Real.sqrt (1 - rho ^ 2)) - cpct / 100) /
            adjusted_se (cpct / 100) (n : ℝ) (Real.sqrt (1 - rho ^ 2)) ≤
          (bpct / 100 + nm.PhiInv (1 - alpha / 2) *
            adjusted_se (bpct / 100) (n : ℝ) (Real.sqrt (1 - rho ^ 2)) - cpct / 100) /
            adjusted_se (cpct / 100) (n : ℝ) (Real.sqrt (1 - rho ^ 2)) :=
        div_le_div_of_nonneg_right (by linarith) hse1.le
      have hd0 : 0 ≤ nm.Phi ((bpct / 100 + nm.PhiInv (1 - alpha / 2) *
            adjusted_se (bpct / 100) (n : ℝ) (Real.sqrt (1 - rho ^ 2)) - cpct / 100) /
            adjusted_se (cpct / 100) (n : ℝ) (Real.sqrt (1 - rho ^ 2))) -
          nm.Phi ((bpct / 100 - nm.PhiInv (1 - alpha / 2) *
            adjusted_se (bpct / 100) (n : ℝ) (Real.sqrt (1 - rho ^ 2)) - cpct / 100) /
            adjusted_se (cpct / 100) (n : ℝ) (Real.sqrt (1 - rho ^ 2))) :=
        sub_nonneg.mpr (hmono hAB)
      have hd1 : nm.Phi ((bpct / 100 + nm.PhiInv (1 - alpha / 2) *
            adjusted_se (bpct / 100) (n : ℝ) (Real.sqrt (1 - rho ^ 2)) - cpct / 100) /
            adjusted_se (cpct / 100) (n : ℝ) (Real.sqrt (1 - rho ^ 2))) -
          nm.Phi ((bpct / 100 - nm.PhiInv (1 - alpha / 2) *
            adjusted_se (bpct / 100) (n : ℝ) (Real.sqrt (1 - rho ^ 2)) - cpct / 100) /
            adjusted_se (cpct / 100) (n : ℝ) (Real.sqrt (1 - rho ^ 2))) ≤ 1 := by
        have h1 := hPhi1 ((bpct / 100 + nm.PhiInv (1 - alpha / 2) *
          adjusted_se (bpct / 100) (n : ℝ) (Real.sqrt (1 - rho ^ 2)) - cpct / 100) /
          adjusted_se (cpct / 100) (n : ℝ) (Real.sqrt (1 - rho ^ 2)))
        have h0 := hPhi0 ((bpct / 100 - nm.PhiInv (1 - alpha / 2) *
          adjusted_se (bpct / 100) (n : ℝ) (Real.sqrt (1 - rho ^ 2)) - cpct / 100) /
          adjusted_se (cpct / 100) (n : ℝ) (Real.sqrt (1 - rho ^ 2)))
        linarith
      have hpow : (power_curve_core nm bpct cpct n alpha .twoSided np rho
            (Real.sqrt (1 - rho ^ 2))).power =
          1 - min 1 (max 0
            (nm.Phi ((bpct / 100 + nm.PhiInv (1 - alpha / 2) *
                adjusted_se (bpct / 100) (n : ℝ) (Real.sqrt (1 - rho ^ 2)) - cpct / 100) /
                adjusted_se (cpct / 100) (n : ℝ) (Real.sqrt (1 - rho ^ 2))) -
              nm.Phi ((bpct / 100 - nm.PhiInv (1 - alpha / 2) *
                adjusted_se (bpct / 100) (n : ℝ) (Real.sqrt (1 - rho ^ 2)) - cpct / 100) /
                adjusted_se (cpct / 100) (n : ℝ) (Real.sqrt (1 - rho ^ 2))))) := rfl
      rw [hpow, clamp_eq_self _ hd0 hd1]
  | greater =>
      refine ⟨rfl, rfl, ?_⟩
      have hpow : (power_curve_core nm bpct cpct n alpha .greater np rho
            (Real.sqrt (1 - rho ^ 2))).power =
          1 - min 1 (max 0
            (nm.Phi ((bpct / 100 + nm.PhiInv (1 - alpha) *
              adjusted_se (bpct / 100) (n : ℝ) (Real.sqrt (1 - rho ^ 2)) - cpct / 100) /
              adjusted_se (cpct / 100) (n : ℝ) (Real.sqrt (1 - rho ^ 2))))) := rfl
      rw [hpow, clamp_eq_self _ (hPhi0 _) (hPhi1 _)]
  | less =>
      refine ⟨rfl, rfl, ?_⟩
      have hpow : (power_curve_core nm bpct cpct n alpha .less np rho
            (Real.sqrt (1 - rho ^ 2))).power =
          1 - min 1 (max 0
            (1 - nm.Phi ((bpct / 100 - nm.PhiInv (1 - alpha) *
              adjusted_se (bpct / 100) (n : ℝ) (Real.sqrt (1 - rho ^ 2)) - cpct / 100) /
              adjusted_se (cpct / 100) (n : ℝ) (Real.sqrt (1 - rho ^ 2))))) := rfl
      have hin0 : (0 : ℝ) ≤ 1 - nm.Phi ((bpct / 100 - nm.PhiInv (1 - alpha) *
          adjusted_se (bpct / 100) (n : ℝ) (Real.sqrt (1 - rho ^ 2)) - cpct / 100) /
          adjusted_se (cpct / 100) (n : ℝ) (Real.sqrt (1 - rho ^ 2))) := by
        have := hPhi1 ((bpct / 100 - nm.PhiInv (1 - alpha) *
          adjusted_se (bpct / 100) (n : ℝ) (Real.sqrt (1 - rho ^ 2)) - cpct / 100) /
          adjusted_se (cpct / 100) (n : ℝ) (Real.sqrt (1 - rho ^ 2)))
        linarith
      have hin1 : 1 - nm.Phi ((bpct / 100 - nm.PhiInv (1 - alpha) *
          adjusted_se (bpct / 100) (n : ℝ) (Real.sqrt (1 - rho ^ 2)) - cpct / 100) /
          adjusted_se (cpct / 100) (n : ℝ) (Real.sqrt (1 - rho ^ 2))) ≤ 1 := by
        have := hPhi0 ((bpct / 100 - nm.PhiInv (1 - alpha) *
          adjusted_se (bpct / 100) (n : ℝ) (Real.sqrt (1 - rho ^ 2)) - cpct / 100) /
          adjusted_se (cpct / 100) (n : ℝ) (Real.sqrt (1 - rho ^ 2)))
        linarith
      rw [hpow, clamp_eq_self _ hin0 hin1]
      ring

/-- Claim C1 witness: the theorem evaluated at a concrete valid
configuration with the degenerate normal model. -/
theorem claim_C1_witness :
    ((0 : ℤ) < 100 ∧ ((0 : ℝ) < 50 / 100 ∧ (50 : ℝ) / 100 < 1) ∧
      ((0 : ℝ) < 40 / 100 ∧ (40 : ℝ) / 100 < 1) ∧ (0 : ℝ) ≤ 0 ∧ (0 : ℝ) < 1 ∧
      Monotone nmHalf.Phi ∧ (∀ t, 0 ≤ nmHalf.Phi t) ∧ (∀ t, nmHalf.Phi t ≤ 1) ∧
      0 ≤ nmHalf.PhiInv (1 - (1 / 20) / 2))
    ∧ (∃ r, power_curve_proportions nmHalf 50 40 100 (1 / 20) .twoSided 201 0 = .ok r ∧
        (r.crit_low = some ((50 : ℝ) / 100 - nmHalf.PhiInv (1 - (1 / 20) / 2) *
          adjusted_se ((50 : ℝ) / 100) ((100 : ℤ) : ℝ) (Real.sqrt (1 - (0 : ℝ) ^ 2)))
        ∧ r.crit_high = some ((50 : ℝ) / 100 + nmHalf.PhiInv (1 - (1 / 20) / 2) *
          adjusted_se ((50 : ℝ) / 100) ((100 : ℤ) : ℝ) (Real.sqrt (1 - (0 : ℝ) ^ 2)))
        ∧ r.power = 1 -
          (nmHalf.Phi (((50 : ℝ) / 100 + nmHalf.PhiInv (1 - (1 / 20) / 2) *
              adjusted_se ((50 : ℝ) / 100) ((100 : ℤ) : ℝ) (Real.sqrt (1 - (0 : ℝ) ^ 2)) -
              (40 : ℝ) / 100) /
              adjusted_se ((40 : ℝ) / 100) ((100 : ℤ) : ℝ) (Real.sqrt (1 - (0 : ℝ) ^ 2))) -
            nmHalf.Phi (((50 : ℝ) / 100 - nmHalf.PhiInv (1 - (1 / 20) / 2) *
              adjusted_se ((50 : ℝ) / 100) ((100 : ℤ) : ℝ) (Real.sqrt (1 - (0 : ℝ) ^ 2)) -
              (40 : ℝ) / 100) /
              adjusted_se ((40 : ℝ) / 100) ((100 : ℤ) : ℝ) (Real.sqrt (1 - (0 : ℝ) ^ 2)))))) :=
  ⟨⟨by norm_num, ⟨by norm_num, by norm_num⟩, ⟨by norm_num, by norm_num⟩,
      le_refl 0, by norm_num, monotone_const, fun t => by norm_num [nmHalf],
      fun t => by norm_num [nmHalf], le_refl 0⟩,
    claim_C1 nmHalf 50 40 100 (1 / 20) .twoSided 201 0 (by norm_num)
      ⟨by norm_num, by norm_num⟩ ⟨by norm_num, by norm_num⟩ (le_refl 0)
      (by norm_num) monotone_const (fun t => by norm_num [nmHalf])
      (fun t => by norm_num [nmHalf]) (le_refl 0)⟩

/-- Under the degenerate model every `greater` power evaluation is one
half. -/
theorem solver_power_nmHalf (bpct cpct alpha : ℝ) (n : ℤ) (hn : 0 < n)
    (hb : 0 < bpct / 100 ∧ bpct / 100 < 1)
    (hc : 0 < cpct / 100 ∧ cpct / 100 < 1) :
    solver_power nmHalf bpct cpct alpha .greater 0 51 n = .ok (1 / 2) := by
  rw [solver_power_eval nmHalf bpct cpct alpha .greater 0 51 n hn hb hc
    (le_refl 0) (by norm_num)]
  rw [Except.ok.injEq]
  have hpow : (power_curve_core nmHalf bpct cpct n alpha .greater 51 0
      (Real.sqrt (1 - (0 : ℝ) ^ 2))).power = 1 - min 1 (max 0 (1 / 2 : ℝ)) := rfl
  rw [hpow]
  norm_num

/-- The solver evaluated through its public entry point. -/
theorem ab_test_sample_size_ok (nm : NormalModel) (bpct cpct alpha pw : ℝ)
    (alt : Alternative) (rho : ℝ)
    (hb : 0 < bpct / 100 ∧ bpct / 100 < 1)
    (hc : 0 < cpct / 100 ∧ cpct / 100 < 1) (hr0 : 0 ≤ rho) (hr1 : rho < 1) :
    ∃ v, ab_test_sample_size nm bpct cpct alpha pw alt rho = .ok v ∧
      10 ≤ v ∧ v ≤ 1000000 :=
  ab_test_ok nm 51 bpct cpct alpha pw alt rho hb hc hr0 hr1

/-- Claim C5 counterexample: with baseline 50, a `greater` test, and
comparison rates 30 and 40, the rate 30 is strictly farther from the
baseline than 40, yet the solver returns the same value 1000000 for both
(the target power is unattainable in this direction), so the result for
the larger effect is not strictly smaller. -/
theorem claim_C5_counterexample :
    |(30 : ℝ) - 50| > |(40 : ℝ) - 50|
    ∧ ab_test_sample_size nmHalf 50 30 (1 / 20) (4 / 5) .greater 0 =
        ab_test_sample_size nmHalf 50 40 (1 / 20) (4 / 5) .greater 0
    ∧ ab_test_sample_size nmHalf 50 30 (1 / 20) (4 / 5) .greater 0 = .ok 1000000 := by
  have key : ∀ cpct : ℝ, 0 < cpct / 100 → cpct / 100 < 1 →
      ab_test_sample_size nmHalf 50 cpct (1 / 20) (4 / 5) .greater 0 = .ok 1000000 := by
    intro cpct hc0 hc1
    show ab_test_sample_size_with_points nmHalf 51 50 cpct (1 / 20) (4 / 5) .greater 0 =
      .ok 1000000
    rw [ab_test_eval nmHalf 51 50 cpct (1 / 20) (4 / 5) .greater 0
      ⟨by norm_num, by norm_num⟩ ⟨hc0, hc1⟩]
    apply searchLoop_const_fail _ (4 / 5) 10 1000000 ?_ 40 10 1000000
      (le_refl 10) (by norm_num) (le_refl 1000000)
    intro m hm _
    exact ⟨1 / 2, solver_power_nmHalf 50 cpct (1 / 20) ⌊m⌋
      (floor_pos_of_ten_le m hm) ⟨by norm_num, by norm_num⟩ ⟨hc0, hc1⟩, by norm_num⟩
  refine ⟨by norm_num, ?_, key 30 (by norm_num) (by norm_num)⟩
  rw [key 30 (by norm_num) (by norm_num), key 40 (by norm_num) (by norm_num)]

/-- Claim C5 (amended): when one comparison rate lies strictly farther
from the baseline and its evaluated power dominates the nearer rate's
power at every positive sample size, the solver's result for the farther
rate is at most — not necessarily strictly below — the nearer rate's
result. -/
theorem claim_C5_amended (nm : NormalModel) (bpct cA cB alpha pw : ℝ)
    (alt : Alternative) (rho : ℝ)
    (hb : 0 < bpct / 100 ∧ bpct / 100 < 1)
    (hcA : 0 < cA / 100 ∧ cA / 100 < 1)
    (hcB : 0 < cB / 100 ∧ cB / 100 < 1)
    (_hfar : |cB - bpct| > |cA - bpct|)
    (hr0 : 0 ≤ rho) (hr1 : rho < 1)
    (hdom : ∀ n : ℤ, 0 < n → ∀ pA pB,
      solver_power nm bpct cA alpha alt rho 51 n = .ok pA →
      solver_power nm bpct cB alpha alt rho 51 n = .ok pB → pA ≤ pB) :
    ∃ vA vB, ab_test_sample_size nm bpct cA alpha pw alt rho = .ok vA
      ∧ ab_test_sample_size nm bpct cB alpha pw alt rho = .ok vB
      ∧ vB ≤ vA := by
  have hArw : ab_test_sample_size nm bpct cA alpha pw alt rho =
      searchLoop (fun mid => solver_power nm bpct cA alpha alt rho 51 ⌊mid⌋)
        pw 40 10 1000000 :=
    ab_test_eval nm 51 bpct cA alpha pw alt rho hb hcA
  have hBrw : ab_test_sample_size nm bpct cB alpha pw alt rho =
      searchLoop (fun mid => solver_power nm bpct cB alpha alt rho 51 ⌊mid⌋)
        pw 40 10 1000000 :=
    ab_test_eval nm 51 bpct cB alpha pw alt rho hb hcB
  rw [hArw, hBrw]
  apply searchLoop_mono _ _ pw 10 1000000 ?_ ?_ ?_ 40 10 1000000
    (le_refl 10) (by norm_num) (le_refl 1000000)
  · intro m hm _
    exact ⟨_, solver_power_eval nm bpct cA alpha alt rho 51 ⌊m⌋
      (floor_pos_of_ten_le m hm) hb hcA hr0 hr1⟩
  · intro m hm _
    exact ⟨_, solver_power_eval nm bpct cB alpha alt rho 51 ⌊m⌋
      (floor_pos_of_ten_le m hm) hb hcB hr0 hr1⟩
  · intro m hm _ pA pB hA hB
    exact hdom ⌊m⌋ (floor_pos_of_ten_le m hm) pA pB hA hB

/-- Claim C5 (amended) witness: the theorem evaluated at baseline 50 with
comparison rates 40 and 30 under the degenerate model, whose `greater`
power is constantly one half. -/
theorem claim_C5_amended_witness :
    (((0 : ℝ) < 50 / 100 ∧ (50 : ℝ) / 100 < 1)
      ∧ ((0 : ℝ) < 40 / 100 ∧ (40 : ℝ) / 100 < 1)
      ∧ ((0 : ℝ) < 30 / 100 ∧ (30 : ℝ) / 100 < 1)
      ∧ |(30 : ℝ) - 50| > |(40 : ℝ) - 50| ∧ (0 : ℝ) ≤ 0 ∧ (0 : ℝ) < 1)
    ∧ ∃ vA vB, ab_test_sample_size nmHalf 50 40 (1 / 20) (4 / 5) .greater 0 = .ok vA
      ∧ ab_test_sample_size nmHalf 50 30 (1 / 20) (4 / 5) .greater 0 = .ok vB
      ∧ vB ≤ vA :=
  ⟨⟨⟨by norm_num, by norm_num⟩, ⟨by norm_num, by norm_num⟩,
      ⟨by norm_num, by norm_num⟩, by norm_num, le_refl 0, by norm_num⟩,
    claim_C5_amended nmHalf 50 40 30 (1 / 20) (4 / 5) .greater 0
      ⟨by norm_num, by norm_num⟩ ⟨by norm_num, by norm_num⟩
      ⟨by norm_num, by norm_num⟩ (by norm_num) (le_refl 0) (by norm_num)
      (by
        intro n hn pA pB hA hB
        rw [solver_power_nmHalf 50 40 (1 / 20) n hn ⟨by norm_num, by norm_num⟩
          ⟨by norm_num, by norm_num⟩, Except.ok.injEq] at hA
        rw [solver_power_nmHalf 50 30 (1 / 20) n hn ⟨by norm_num, by norm_num⟩
          ⟨by norm_num, by norm_num⟩, Except.ok.injEq] at hB
        rw [← hA, ← hB])⟩

/-- `geomspace` always has exactly `num` entries. -/
theorem geomspace_length (a b : ℝ) (num : ℕ) : (geomspace a b num).length = num := by
  unfold geomspace
  split_ifs with h
  · simp [h]
  · simp

/-- The lift grid from 1 to 100 is strictly increasing. -/
theorem geomspace_pairwise (num : ℕ) (hnum : 2 ≤ num) :
    (geomspace 1 100 num).Pairwise (· < ·) := by
  unfold geomspace
  rw [if_neg (by omega)]
  refine (List.pairwise_lt_range num).map _ ?_
  intro i j hij
  have hden : (0 : ℝ) < (num : ℝ) - 1 := by
    have : (2 : ℝ) ≤ (num : ℝ) := by exact_mod_cast hnum
    linarith
  have hij' : (i : ℝ) < (j : ℝ) := by exact_mod_cast hij
  have hexp : (i : ℝ) / ((num : ℝ) - 1) < (j : ℝ) / ((num : ℝ) - 1) :=
    (div_lt_div_iff_of_pos_right hden).mpr hij'
  have hbase : ((100 : ℝ) / 1) = 100 := by norm_num
  simp only [one_mul, hbase]
  exact (Real.rpow_lt_rpow_left_iff (by norm_num)).mpr hexp

/-- Every entry of the lift grid is positive. -/
theorem geomspace_pos (num : ℕ) (hnum : 2 ≤ num) :
    ∀ l ∈ geomspace 1 100 num, 0 < l := by
  intro l hl
  unfold geomspace at hl
  rw [if_neg (by omega)] at hl
  obtain ⟨i, _, rfl⟩ := List.mem_map.mp hl
  have : (0 : ℝ) < Real.rpow (100 / 1) ((i : ℝ) / ((num : ℝ) - 1)) :=
    Real.rpow_pos_of_pos (by norm_num) _
  linarith

/-- The lift grid starts at 1. -/
theorem geomspace_mem_one (num : ℕ) (hnum : 2 ≤ num) :
    (1 : ℝ) ∈ geomspace 1 100 num := by
  unfold geomspace
  rw [if_neg (by omega)]
  refine List.mem_map.mpr ⟨0, List.mem_range.mpr (by omega), ?_⟩
  norm_num

/-- The lift grid ends at 100. -/
theorem geomspace_mem_hundred (num : ℕ) (hnum : 2 ≤ num) :
    (100 : ℝ) ∈ geomspace 1 100 num := by
  unfold geomspace
  rw [if_neg (by omega)]
  refine List.mem_map.mpr ⟨num - 1, List.mem_range.mpr (by omega), ?_⟩
  have hcast : ((num - 1 : ℕ) : ℝ) = (num : ℝ) - 1 := by
    have h1 : 1 ≤ num := by omega
    push_cast [h1]
    ring
  have hden : ((num : ℝ) - 1) ≠ 0 := by
    have : (2 : ℝ) ≤ (num : ℝ) := by exact_mod_cast hnum
    linarith
  rw [hcast, div_self hden, one_mul]
  have : ((100 : ℝ) / 1) = 100 := by norm_num
  rw [this]
  exact Real.rpow_one 100

/-- The MDE loop on positive lifts: it succeeds, its output lifts form a
sublist of the input lifts, and every emitted point has a comparison
rate below 100 computed from its lift. -/
theorem mde_loop_ok (nm : NormalModel) (bpct alpha pw : ℝ) (alt : Alternative)
    (rho : ℝ) (hb0 : 0 < bpct) (hb1 : bpct < 100) (hr0 : 0 ≤ rho) (hr1 : rho < 1) :
    ∀ lifts : List ℝ, (∀ l ∈ lifts, 0 < l) →
      ∃ pts, mde_loop nm bpct alpha pw alt rho lifts = .ok pts
        ∧ (pts.map (fun p => p.relativeLiftPct)).Sublist lifts
        ∧ ∀ pt ∈ pts, pt.comparisonPct < 100 ∧
            pt.comparisonPct = bpct * (1 + pt.relativeLiftPct / 100) := by
  intro lifts
  induction lifts with
  | nil =>
      intro _
      exact ⟨[], rfl, List.nil_sublist [], by simp⟩
  | cons l rest ih =>
      intro hpos
      obtain ⟨pts, hrec, hsub, hprop⟩ :=
        ih (fun x hx => hpos x (List.mem_cons_of_mem l hx))
      by_cases hcmp : 100 ≤ bpct * (1 + l / 100)
      · refine ⟨pts, ?_, hsub.cons l, hprop⟩
        unfold mde_loop
        rw [if_pos hcmp]
        exact hrec
      · push_neg at hcmp
        have hl : 0 < l := hpos l (List.mem_cons_self l rest)
        have hcpos : 0 < bpct * (1 + l / 100) :=
          mul_pos hb0 (by
            have := div_pos hl (by norm_num : (0 : ℝ) < 100)
            linarith)
        have hbv : 0 < bpct / 100 ∧ bpct / 100 < 1 :=
          ⟨div_pos hb0 (by norm_num), (div_lt_one (by norm_num)).mpr hb1⟩
        have hcv : 0 < bpct * (1 + l / 100) / 100 ∧ bpct * (1 + l / 100) / 100 < 1 :=
          ⟨div_pos hcpos (by norm_num), (div_lt_one (by norm_num)).mpr hcmp⟩
        obtain ⟨v, hv, hv10, hv1e6⟩ :=
          ab_test_sample_size_ok nm bpct (bpct * (1 + l / 100)) alpha pw alt rho
            hbv hcv hr0 hr1
        by_cases hbig : 1000000 ≤ v
        · refine ⟨pts, ?_, hsub.cons l, hprop⟩
          unfold mde_loop
          rw [if_neg (not_le.mpr hcmp), hv, hrec]
          dsimp only
          rw [if_pos hbig]
        · refine ⟨(⟨l, bpct * (1 + l / 100) - bpct, bpct * (1 + l / 100), v⟩ :
              MdeCurvePoint) :: pts, ?_, ?_, ?_⟩
          · unfold mde_loop
            rw [if_neg (not_le.mpr hcmp), hv, hrec]
            dsimp only
            rw [if_neg hbig]
          · exact hsub.cons₂ l
          · intro pt hpt
            rcases List.mem_cons.mp hpt with h | h
            · rw [h]
              exact ⟨hcmp, rfl⟩
            · exact hprop pt h

/-- Claim C8: the MDE sweep builds `numPoints` lifts on a geometric grid
from 1 to 100, silently skips lifts whose comparison rate reaches 100 or
whose solved size reaches 1,000,000, and returns at most `numPoints`
points, strictly ascending in lift, each with comparison rate below
100. -/
theorem claim_C8 (nm : NormalModel) (bpct alpha pw : ℝ) (alt : Alternative)
    (numPoints : ℕ) (rho : ℝ)
    (hb0 : 0 < bpct) (hb1 : bpct < 100) (hn5 : 5 ≤ numPoints)
    (hn50 : numPoints ≤ 50) (hr0 : 0 ≤ rho) (hr1 : rho < 1) :
    (geomspace 1 100 numPoints).length = numPoints
    ∧ (geomspace 1 100 numPoints).Pairwise (· < ·)
    ∧ (1 : ℝ) ∈ geomspace 1 100 numPoints
    ∧ (100 : ℝ) ∈ geomspace 1 100 numPoints
    ∧ ∃ pts, get_mde_curve nm bpct alpha pw alt numPoints rho = .ok pts
        ∧ pts.length ≤ numPoints
        ∧ (pts.map (fun p => p.relativeLiftPct)).Pairwise (· < ·)
        ∧ ∀ pt ∈ pts, pt.comparisonPct < 100 ∧
            pt.comparisonPct = bpct * (1 + pt.relativeLiftPct / 100) := by
  have hnum : 2 ≤ numPoints := by omega
  obtain ⟨pts, hloop, hsub, hprop⟩ :=
    mde_loop_ok nm bpct alpha pw alt rho hb0 hb1 hr0 hr1
      (geomspace 1 100 numPoints) (geomspace_pos numPoints hnum)
  refine ⟨geomspace_length 1 100 numPoints, geomspace_pairwise numPoints hnum,
    geomspace_mem_one numPoints hnum, geomspace_mem_hundred numPoints hnum,
    pts, hloop, ?_, ?_, hprop⟩
  · have hlen : (pts.map (fun p => p.relativeLiftPct)).length ≤
        (geomspace 1 100 numPoints).length := hsub.length_le
    rw [List.length_map, geomspace_length] at hlen
    exact hlen
  · exact (geomspace_pairwise numPoints hnum).sublist hsub

/-- Claim C8 witness: the theorem evaluated at baseline 10 with 20
points. -/
theorem claim_C8_witness :
    ((0 : ℝ) < 10 ∧ (10 : ℝ) < 100 ∧ 5 ≤ 20 ∧ 20 ≤ 50 ∧ (0 : ℝ) ≤ 0 ∧ (0 : ℝ) < 1)
    ∧ ((geomspace 1 100 20).length = 20
      ∧ (geomspace 1 100 20).Pairwise (· < ·)
      ∧ (1 : ℝ) ∈ geomspace 1 100 20
      ∧ (100 : ℝ) ∈ geomspace 1 100 20
      ∧ ∃ pts, get_mde_curve nmHalf 10 (1 / 20) (4 / 5) .twoSided 20 0 = .ok pts
          ∧ pts.length ≤ 20
          ∧ (pts.map (fun p => p.relativeLiftPct)).Pairwise (· < ·)
          ∧ ∀ pt ∈ pts, pt.comparisonPct < 100 ∧
              pt.comparisonPct = 10 * (1 + pt.relativeLiftPct / 100)) :=
  ⟨⟨by norm_num, by norm_num, by norm_num, by norm_num, le_refl 0, by norm_num⟩,
    claim_C8 nmHalf 10 (1 / 20) (4 / 5) .twoSided 20 0 (by norm_num) (by norm_num)
      (by norm_num) (by norm_num) (le_refl 0) (by norm_num)⟩

end

end SampleSizeCalculator
